import Mathlib

/-!
Shallow embedding of `src/main.ts` of the `enginematch` repository.

The module exports `satisfies(pkg, {requirements})`, a decision procedure that
checks a package manifest's declared platform support (`engines` semver ranges
and a `browserslist` field) against caller-supplied per-engine
minimum/maximum version requirements.

Two collaborators are external libraries, consumed as opaque primitives and
therefore modelled as parameters of the embedding:
- the semver primitive set (`minVersion`, `intersects`, `coerce`, `gte`,
  `lte`), a `SemverOps V` structure over an abstract version type `V`;
- the browserslist query resolver, a function from a query (a single string
  or a list of strings, matching the two call shapes in the source) to a flat
  list of `"family version"` strings.

JavaScript-specific behaviours are modelled explicitly: string falsiness
(`undefined` and `""` are falsy, arrays are always truthy), `String.split`,
`indexOf`/`slice` decomposition, `Map` insertion order, and the
`JSON.stringify` rendering used in the one thrown error message.
-/

namespace EngineMatch

/-- A `browserslist` record value is `string | string[]` in the source type. -/
inductive StrOrList where
  | str : String → StrOrList
  | list : List String → StrOrList
deriving DecidableEq, Repr

/-- The `browserslist` manifest field: `string | string[] | Record<string, string | string[]>`.
The record is modelled as an association list of key/value pairs. -/
inductive BrowserslistField where
  | str : String → BrowserslistField
  | list : List String → BrowserslistField
  | record : List (String × StrOrList) → BrowserslistField
deriving DecidableEq, Repr

/-- `EngineConstraint` from `src/main.ts`: an engine name with optional
minimum/maximum version bounds. -/
structure EngineConstraint where
  engine : String
  minVersion : Option String := none
  maxVersion : Option String := none
deriving DecidableEq, Repr

/-- `PackageJson` from `src/main.ts`: optional `engines` record (modelled as an
association list) and optional `browserslist` field. -/
structure PackageJson where
  engines : Option (List (String × String)) := none
  browserslist : Option BrowserslistField := none
deriving DecidableEq, Repr

/-- The options argument of `satisfies`. -/
structure SatisfiesOptions where
  requirements : List EngineConstraint
deriving DecidableEq, Repr

/-- The argument shapes the source passes to the `browserslist` resolver:
a plain query string (the `'last 1 safari version'` call) or a query list
(the `browserslist(query_list)` call). -/
inductive BQuery where
  | str : String → BQuery
  | list : List String → BQuery
deriving DecidableEq, Repr

/-- The external browserslist query resolver, an opaque collaborator. -/
def Resolver : Type := BQuery → List String

/-- The external semver primitive set over an abstract comparable version type
`V`: `minVersion`, `intersects`, `coerce`, `gte`, `lte` as imported in
`src/main.ts`. Fallible primitives return `Option V` (the source checks their
results for falsiness). -/
structure SemverOps (V : Type) where
  minVersion : String → Option V
  intersects : String → String → Bool
  coerce : String → Option V
  gte : V → V → Bool
  lte : V → V → Bool

/-! ## JavaScript string and map primitives -/

/-- Decompose a character list at the first occurrence of `c`:
models `s.indexOf(c)` followed by `s.slice(0, idx)` / `s.slice(idx + 1)`;
`none` when `indexOf` returns `-1`. -/
def breakOnChar (c : Char) : List Char → Option (List Char × List Char)
  | [] => none
  | x :: xs =>
    if x = c then some ([], xs)
    else
      match breakOnChar c xs with
      | none => none
      | some (a, b) => some (x :: a, b)

/-- Models JavaScript `s.split(c)` for a single-character separator on the
underlying character list: maximal segments between occurrences of `c`
(always a nonempty list of segments). -/
def splitOnCharList (c : Char) : List Char → List (List Char)
  | [] => [[]]
  | x :: xs =>
    match splitOnCharList c xs with
    | [] => [[]]
    | r :: rs => if x = c then [] :: r :: rs else (x :: r) :: rs

/-- JavaScript `version.split(c)` on strings. -/
def jsSplit (c : Char) (s : String) : List String :=
  (splitOnCharList c s.data).map String.mk

/-- Models `s.slice(s.indexOf(c) + 1)`: everything after the first occurrence
of `c`, or the whole string when `c` is absent (`indexOf` is `-1`, so the
slice starts at `0`). Used for the `'TP'` substitution in the source. -/
def afterChar (c : Char) (s : String) : String :=
  match breakOnChar c s.data with
  | none => s
  | some (_, b) => String.mk b

/-- Association-list lookup, modelling both `Map.get` and plain-object
property access (first matching key wins; keys are unique by construction). -/
def map_get {α : Type} : List (String × α) → String → Option α
  | [], _ => none
  | (k, v) :: rest, key => if k = key then some v else map_get rest key

/-- Models the `existing.push(version)` / `map.set(family, [version])` pair in
`parse_browserslist`: append to the existing entry's list, or add a new entry
at the end, preserving `Map` insertion order. -/
def map_push (m : List (String × List String)) (k v : String) :
    List (String × List String) :=
  match m with
  | [] => [(k, [v])]
  | (k', vs) :: rest =>
    if k' = k then (k', vs ++ [v]) :: rest else (k', vs) :: map_push rest k v

/-- JavaScript truthiness of a `string | undefined` value: `undefined` and the
empty string are falsy. -/
def truthy : Option String → Bool
  | none => false
  | some s => s != ""

/-! ## JSON rendering for the thrown error message -/

/-- Models `JSON.stringify` escaping for one character (quotes and
backslashes; the shapes in scope contain no control characters). -/
def jsonEscapeChar (c : Char) : String :=
  if c = '"' then "\\\"" else if c = '\\' then "\\\\" else String.mk [c]

/-- Models `JSON.stringify` of a string. -/
def jsonString (s : String) : String :=
  "\"" ++ String.join (s.data.map jsonEscapeChar) ++ "\""

/-- Models `JSON.stringify` of a `string | string[]` record value. -/
def jsonStrOrList : StrOrList → String
  | .str s => jsonString s
  | .list l => "[" ++ String.intercalate "," (l.map jsonString) ++ "]"

/-- Models `JSON.stringify` of the rejected record-shaped `browserslist`
value, as interpolated into the error message in `parse_browserslist`. -/
def jsonRecord (r : List (String × StrOrList)) : String :=
  "\x7b" ++
    String.intercalate ","
      (r.map (fun kv => jsonString kv.1 ++ ":" ++ jsonStrOrList kv.2)) ++
    "\x7d"

/-! ## `parse_browserslist` -/

/-- The body of the `for (const entry of resolved)` loop in
`parse_browserslist`: split the entry on its first space into family and
version (skipping entries without a space) and push the version onto the
family's list. -/
def add_entry (map : List (String × List String)) (entry : String) :
    List (String × List String) :=
  match breakOnChar ' ' entry.data with
  | none => map
  | some (fam, ver) => map_push map (String.mk fam) (String.mk ver)

/-- The tail of `parse_browserslist` after shape normalization: return an
empty map for an empty query list, otherwise resolve the list and fold the
resolved `"family version"` entries into a map. -/
def resolve_queries (resolver : Resolver) (query_list : List String) :
    List (String × List String) :=
  if query_list = [] then []
  else (resolver (BQuery.list query_list)).foldl add_entry []

/-- `parse_browserslist` from `src/main.ts`: an absent field yields an empty
map; a string becomes a one-element query list; a list passes through; any
other shape throws `'Unsupported browserslist format: ' + JSON.stringify(queries)`
(modelled as `Except.error`). -/
def parse_browserslist (resolver : Resolver)
    (queries : Option BrowserslistField) :
    Except String (List (String × List String)) :=
  match queries with
  | none => .ok []
  | some (.str s) => .ok (resolve_queries resolver [s])
  | some (.list l) => .ok (resolve_queries resolver l)
  | some (.record r) =>
    .error ("Unsupported browserslist format: " ++ jsonRecord r)

/-! ## The decision engine `satisfies` -/

/-- The `minVersion` arm of the engine-range check:
`!lowest || !coerced_min || !gte(lowest, coerced_min)` fails the decision. -/
def check_min_range {V : Type} (sv : SemverOps V) (engine_range m : String) :
    Bool :=
  match sv.minVersion engine_range, sv.coerce m with
  | some lowest, some coerced_min => sv.gte lowest coerced_min
  | _, _ => false

/-- The `maxVersion` arm of the engine-range check:
`semverIntersects(engine_range, '>' + maxVersion)` fails the decision. -/
def check_max_range {V : Type} (sv : SemverOps V) (engine_range x : String) :
    Bool :=
  !(sv.intersects engine_range (">" ++ x))

/-- The `if (engine_range)` block of `satisfies`: the `minVersion` and
`maxVersion` arms, each guarded by the truthiness of its bound. -/
def check_engine_range {V : Type} (sv : SemverOps V) (engine_range : String)
    (mv xv : Option String) : Bool :=
  (if truthy mv then check_min_range sv engine_range (mv.getD "") else true) &&
  (if truthy xv then check_max_range sv engine_range (xv.getD "") else true)

/-- The `minVersion` arm of the per-token browser check:
`!coerced || !coerced_min || !gte(coerced, coerced_min)` fails. -/
def check_min_version {V : Type} (sv : SemverOps V) (low m : String) : Bool :=
  match sv.coerce low, sv.coerce m with
  | some coerced, some coerced_min => sv.gte coerced coerced_min
  | _, _ => false

/-- The `maxVersion` arm of the per-token browser check:
`!coerced || !coerced_max || !lte(coerced, coerced_max)` fails. -/
def check_max_version {V : Type} (sv : SemverOps V) (high x : String) : Bool :=
  match sv.coerce high, sv.coerce x with
  | some coerced, some coerced_max => sv.lte coerced coerced_max
  | _, _ => false

/-- The body of the token loop after the `'TP'` substitution: split the token
on `'-'`, use `parts[0]` as the low bound for the `minVersion` check and
`parts[parts.length - 1]` as the high bound for the `maxVersion` check. -/
def check_version_core {V : Type} (sv : SemverOps V) (mv xv : Option String)
    (version : String) : Bool :=
  let parts := jsSplit '-' version
  let low := parts.headD ""
  let high := parts.getLastD ""
  (if truthy mv then check_min_version sv low (mv.getD "") else true) &&
  (if truthy xv then check_max_version sv high (xv.getD "") else true)

/-- One iteration of the token loop in `satisfies`, including the `'TP'`
special case: resolve `'last 1 safari version'`, skip the token (`continue`)
when the first result is falsy, otherwise substitute the part after the first
space of that result and fall through to the bound checks. -/
def check_version {V : Type} (sv : SemverOps V) (resolver : Resolver)
    (mv xv : Option String) (version : String) : Bool :=
  if version = "TP" then
    let latest := (resolver (BQuery.str "last 1 safari version")).headD ""
    if latest = "" then true
    else check_version_core sv mv xv (afterChar ' ' latest)
  else check_version_core sv mv xv version

/-- One iteration of the constraint loop in `satisfies`: skip when both
bounds are falsy; look up the engine range and the resolved browser versions;
skip when the engine range is falsy and the browser list is absent; otherwise
run the engine-range check (when the range is truthy) and the per-token
browser checks (when the list is present). `true` means the constraint did
not fail the decision. -/
def check_constraint {V : Type} (sv : SemverOps V) (resolver : Resolver)
    (engines : List (String × String))
    (browser_map : List (String × List String)) (c : EngineConstraint) :
    Bool :=
  if !truthy c.minVersion && !truthy c.maxVersion then true
  else
    let engine_range := map_get engines c.engine
    let browser_versions := map_get browser_map c.engine
    if !truthy engine_range && browser_versions.isNone then true
    else
      (match engine_range with
       | some r =>
         if r != "" then check_engine_range sv r c.minVersion c.maxVersion
         else true
       | none => true) &&
      (match browser_versions with
       | some vs =>
         vs.all (check_version sv resolver c.minVersion c.maxVersion)
       | none => true)

/-- `satisfies` from `src/main.ts`: parse the `browserslist` field (which may
throw), default `engines` to the empty record, and require every constraint
to pass; an early `return false` in the source is the same as the conjunction
over all constraints because every check is pure. -/
def satisfies {V : Type} (sv : SemverOps V) (resolver : Resolver)
    (pkg : PackageJson) (options : SatisfiesOptions) : Except String Bool :=
  match parse_browserslist resolver pkg.browserslist with
  | .error e => .error e
  | .ok browser_map =>
    .ok (options.requirements.all
      (check_constraint sv resolver (pkg.engines.getD []) browser_map))

/-! ## Specification-side definition for the range-token claim

`spec_bound_check` is written from the spec's words ("use the first segment
as the low bound and the last segment as the high bound" for the
`minVersion`/`maxVersion` checks respectively), to be compared with the
source-derived `check_version_core`. -/

/-- Bound checks on an explicitly given low/high pair, following the spec's
description of range-token handling. -/
def spec_bound_check {V : Type} (sv : SemverOps V) (mv xv : Option String)
    (low high : String) : Bool :=
  (if truthy mv then check_min_version sv low (mv.getD "") else true) &&
  (if truthy xv then check_max_version sv high (xv.getD "") else true)

/-! ## Concrete collaborator instances

The development is parametric in the semver primitive set and the query
resolver. The instances below are small executable stand-ins used to evaluate
the theorems on closed inputs; they are not part of the embedded program. -/

/-- Decidable equality for `Except` results, used to evaluate closed
statements about `satisfies`. -/
instance {e a : Type} [DecidableEq e] [DecidableEq a] :
    DecidableEq (Except e a) := fun x y =>
  match x, y with
  | .ok v, .ok w =>
    if h : v = w then isTrue (by rw [h])
    else isFalse (by intro hh; cases hh; exact h rfl)
  | .error v, .error w =>
    if h : v = w then isTrue (by rw [h])
    else isFalse (by intro hh; cases hh; exact h rfl)
  | .ok _, .error _ => isFalse (by intro hh; cases hh)
  | .error _, .ok _ => isFalse (by intro hh; cases hh)

/-- Digit value of a character, if it is a decimal digit. -/
def charDigit (c : Char) : Option Nat :=
  if '0' ≤ c ∧ c ≤ '9' then some (c.toNat - 48) else none

/-- Accumulating decimal parser over a character list; stops at a dot
(major-version coercion), rejects any other non-digit. -/
def parseNatAux : List Char → Option Nat → Option Nat
  | [], acc => acc
  | c :: cs, acc =>
    match charDigit c, acc with
    | some d, some n => parseNatAux cs (some (n * 10 + d))
    | some d, none => parseNatAux cs (some d)
    | none, a => if c = '.' then a else none

/-- Loose version coercion for the concrete collaborator: leading decimal
value, `none` when there is none (e.g. the literal `"all"`). -/
def parseNat (s : String) : Option Nat := parseNatAux s.data none

/-- Concrete range reading: `">=n"` is the unbounded-above range `[n, ∞)`,
a plain numeral is the single version. -/
def natRange (r : String) : Option (Bool × Nat) :=
  match r.data with
  | '>' :: '=' :: rest => (parseNatAux rest none).map (fun n => (true, n))
  | l => (parseNatAux l none).map (fun n => (false, n))

/-- Concrete reading of the `'>' + maxVersion` query used by the
`maxVersion` engine check. -/
def natQuery (q : String) : Option Nat :=
  match q.data with
  | '>' :: rest => parseNatAux rest none
  | _ => none

/-- A concrete semver collaborator over natural-number versions. -/
def natOps : SemverOps Nat where
  minVersion r := (natRange r).map (fun p => p.2)
  intersects r q :=
    match natRange r, natQuery q with
    | some (ub, lo), some m => if ub then true else decide (m < lo)
    | _, _ => false
  coerce := parseNat
  gte a b := decide (b ≤ a)
  lte a b := decide (a ≤ b)

/-- The `natOps` collaborator with a trivial `intersects`, under which no
engine range admits versions above any cap. -/
def natOpsNI : SemverOps Nat :=
  { natOps with intersects := fun _ _ => false }

/-- A resolver that resolves every query to nothing. -/
def res0 : Resolver := fun _ => []

/-- A resolver whose query-list results are a single chrome entry. -/
def res1 : Resolver := fun q =>
  match q with
  | .list _ => ["chrome 100"]
  | .str _ => []

/-- A resolver whose query-list results are the uncoercible `op_mini all`. -/
def res2 : Resolver := fun q =>
  match q with
  | .list _ => ["op_mini all"]
  | .str _ => []

/-- A resolver that resolves query lists to `safari TP` and the
`'last 1 safari version'` lookup to a concrete safari release. -/
def res3 : Resolver := fun q =>
  match q with
  | .list _ => ["safari TP"]
  | .str _ => ["safari 26"]

/-- A resolver that resolves query lists to `safari TP` but has no answer for
the `'last 1 safari version'` lookup. -/
def res4 : Resolver := fun q =>
  match q with
  | .list _ => ["safari TP"]
  | .str _ => []

/-- A record-shaped `browserslist` manifest. -/
def pkgRec : PackageJson :=
  { engines := none,
    browserslist := some (.record [("production", .list ["chrome >= 120"])]) }

/-! ## Claim C1 -/

/-- Claim C1, counterexample: a manifest whose `browserslist` field is the
environment-keyed record form makes `satisfies` raise the format error even
with an empty requirement list, so the call does not return `true` and does
inspect the manifest. -/
theorem empty_requirements_record_raises :
    satisfies natOps res0 pkgRec ⟨[]⟩ =
      .error ("Unsupported browserslist format: " ++
        jsonRecord [("production", .list ["chrome >= 120"])]) ∧
    satisfies natOps res0 pkgRec ⟨[]⟩ ≠ .ok true :=
  ⟨rfl, fun h => Except.noConfusion h⟩

/-- Claim C1 (amended): for every manifest whose `browserslist` field is
absent, a single string, or a list of strings, `satisfies` with an empty
requirement list returns `true` without raising an error (the record form
instead raises the format error before the requirement list is consulted). -/
theorem satisfies_empty_requirements {V : Type} (sv : SemverOps V)
    (resolver : Resolver) (pkg : PackageJson)
    (h : pkg.browserslist = none ∨
      (∃ s, pkg.browserslist = some (.str s)) ∨
      (∃ l, pkg.browserslist = some (.list l))) :
    satisfies sv resolver pkg ⟨[]⟩ = .ok true := by
  rcases h with h | ⟨s, h⟩ | ⟨l, h⟩ <;>
    simp [satisfies, h, parse_browserslist, List.all]

/-- Claim C1 (amended), witness. -/
theorem satisfies_empty_requirements_witness :
    satisfies natOps res0 { engines := some [("node", ">=18")] } ⟨[]⟩ =
      .ok true :=
  satisfies_empty_requirements natOps res0 _ (Or.inl rfl)

/-! ## Claim C2 -/

/-- Claim C2: `satisfies` raises an error if and only if the `browserslist`
field is present and is neither a string nor a list of strings (the
record-shaped format error), and that error's message identifies the
offending value; for every other input it returns a boolean. -/
theorem satisfies_error_iff_record {V : Type} (sv : SemverOps V)
    (resolver : Resolver) (pkg : PackageJson) (opts : SatisfiesOptions) :
    ((∃ e, satisfies sv resolver pkg opts = .error e) ↔
      ∃ r, pkg.browserslist = some (.record r)) ∧
    (∀ r, pkg.browserslist = some (.record r) →
      satisfies sv resolver pkg opts =
        .error ("Unsupported browserslist format: " ++ jsonRecord r)) := by
  constructor
  · constructor
    · rintro ⟨e, he⟩
      match hb : pkg.browserslist with
      | none => simp [satisfies, hb, parse_browserslist] at he
      | some (.str s) => simp [satisfies, hb, parse_browserslist] at he
      | some (.list l) => simp [satisfies, hb, parse_browserslist] at he
      | some (.record r) => exact ⟨r, rfl⟩
    · rintro ⟨r, hr⟩
      exact ⟨"Unsupported browserslist format: " ++ jsonRecord r,
        by simp [satisfies, hr, parse_browserslist]⟩
  · intro r hr
    simp [satisfies, hr, parse_browserslist]

/-- Claim C2, witness. -/
theorem satisfies_error_iff_record_witness :
    satisfies natOps res0 pkgRec ⟨[⟨"chrome", some "100", none⟩]⟩ =
      .error ("Unsupported browserslist format: " ++
        jsonRecord [("production", .list ["chrome >= 120"])]) :=
  (satisfies_error_iff_record natOps res0 pkgRec _).2 _ rfl

/-! ## Claim C3 -/

/-- Claim C3: for a requirement on an engine with a declared (truthy) engine
range and no browser targeting, the decision with `minVersion` present fails
exactly when the range's infimum or the coerced minimum fails to resolve or
the infimum is not `gte` the coerced minimum (i.e. is strictly below it),
and the decision with `maxVersion` present fails exactly when the range
intersects the open range strictly above the cap. -/
theorem engine_range_decision {V : Type} (sv : SemverOps V)
    (resolver : Resolver) (e r m x : String)
    (hr : r ≠ "") (hm : m ≠ "") (hx : x ≠ "") :
    (satisfies sv resolver { engines := some [(e, r)], browserslist := none }
        ⟨[⟨e, some m, none⟩]⟩ = .ok false ↔
      ¬ ∃ lowest cmin, sv.minVersion r = some lowest ∧
        sv.coerce m = some cmin ∧ sv.gte lowest cmin = true) ∧
    (satisfies sv resolver { engines := some [(e, r)], browserslist := none }
        ⟨[⟨e, none, some x⟩]⟩ = .ok false ↔
      sv.intersects r (">" ++ x) = true) := by
  have hm' : truthy (some m) = true := by simp [truthy, hm]
  have hx' : truthy (some x) = true := by simp [truthy, hx]
  have hr' : (r != "") = true := by simp [hr]
  constructor
  · have hev : satisfies sv resolver
        { engines := some [(e, r)], browserslist := none }
        ⟨[⟨e, some m, none⟩]⟩ = .ok (check_min_range sv r m) := by
      simp [satisfies, parse_browserslist, check_constraint, hm', hr', truthy,
        map_get, check_engine_range, hr, hm]
    rw [hev]
    rcases h1 : sv.minVersion r with _ | lowest <;>
      rcases h2 : sv.coerce m with _ | cmin <;>
        simp [check_min_range, h1, h2]
  · have hev : satisfies sv resolver
        { engines := some [(e, r)], browserslist := none }
        ⟨[⟨e, none, some x⟩]⟩ = .ok (check_max_range sv r x) := by
      simp [satisfies, parse_browserslist, check_constraint, hx', hr', truthy,
        map_get, check_engine_range, hr, hx]
    rw [hev]
    simp [check_max_range]

/-- Claim C3, witness. -/
theorem engine_range_decision_witness :
    satisfies natOps res0 { engines := some [("node", ">=12")] }
      ⟨[⟨"node", some "14", none⟩]⟩ = .ok false ∧
    satisfies natOps res0 { engines := some [("node", ">=12")] }
      ⟨[⟨"node", none, some "18"⟩]⟩ = .ok false := by
  have h := engine_range_decision natOps res0 "node" ">=12" "14" "18"
    (by decide) (by decide) (by decide)
  constructor
  · refine h.1.mpr ?_
    rintro ⟨l, cm, h1, h2, h3⟩
    have h1' : some (12 : Nat) = some l := h1
    have h2' : some (14 : Nat) = some cm := h2
    cases h1'
    cases h2'
    exact absurd h3 (by decide)
  · exact h.2.mpr rfl

/-! ## Claim C5 -/

/-- Claim C5: a constraint whose engine is absent from both the manifest's
engines map and the resolved browser map never causes `satisfies` to return
`false`, whatever bounds it carries: dropping the constraint does not change
the result. -/
theorem untargeted_constraint_skipped {V : Type} (sv : SemverOps V)
    (resolver : Resolver) (pkg : PackageJson) (c : EngineConstraint)
    (rs : List EngineConstraint)
    (heng : map_get (pkg.engines.getD []) c.engine = none)
    (hbm : ∀ bm, parse_browserslist resolver pkg.browserslist = .ok bm →
      map_get bm c.engine = none) :
    satisfies sv resolver pkg ⟨c :: rs⟩ = satisfies sv resolver pkg ⟨rs⟩ := by
  unfold satisfies
  cases hp : parse_browserslist resolver pkg.browserslist with
  | error e => rfl
  | ok bm =>
    have h1 := hbm bm hp
    simp [List.all_cons, check_constraint, heng, h1, truthy]

/-- Claim C5, witness. -/
theorem untargeted_constraint_skipped_witness :
    satisfies natOps res0 { engines := some [("node", ">=18")] }
      ⟨[⟨"deno", some "1", some "99"⟩, ⟨"node", some "14", none⟩]⟩ =
    satisfies natOps res0 { engines := some [("node", ">=18")] }
      ⟨[⟨"node", some "14", none⟩]⟩ :=
  untargeted_constraint_skipped natOps res0 _ _ _ rfl
    (fun _ h => by injection h with h2; exact h2 ▸ rfl)

/-! ## Claim C8 -/

/-- Claim C8: for two constraints on different engines, the two-constraint
call decides as the conjunction of the two single-constraint calls, with
agreement on whether an error is raised. -/
theorem satisfies_and_composition {V : Type} (sv : SemverOps V)
    (resolver : Resolver) (pkg : PackageJson) (A B : EngineConstraint)
    (_hAB : A.engine ≠ B.engine) :
    satisfies sv resolver pkg ⟨[A, B]⟩ =
      (satisfies sv resolver pkg ⟨[A]⟩).bind (fun a =>
        (satisfies sv resolver pkg ⟨[B]⟩).map (fun b => a && b)) := by
  unfold satisfies
  cases hp : parse_browserslist resolver pkg.browserslist with
  | error e => rfl
  | ok bm =>
    simp [Except.bind, Except.map, List.all_cons, List.all_nil, Bool.and_true]

/-- Claim C8, witness. -/
theorem satisfies_and_composition_witness :
    satisfies natOps res0 { engines := some [("node", ">=18")] }
      ⟨[⟨"node", some "14", none⟩, ⟨"deno", some "1", none⟩]⟩ =
      (satisfies natOps res0 { engines := some [("node", ">=18")] }
        ⟨[⟨"node", some "14", none⟩]⟩).bind (fun a =>
        (satisfies natOps res0 { engines := some [("node", ">=18")] }
          ⟨[⟨"deno", some "1", none⟩]⟩).map (fun b => a && b)) :=
  satisfies_and_composition natOps res0 _ _ _ (by decide)

/-! ## Claim C10 -/

/-- Claim C10: a constraint whose `minVersion` and `maxVersion` are both the
empty string is treated exactly like a boundless constraint: it is skipped
before any engine or browser lookup (its check passes for every engines map
and browser map) and dropping it never changes the result. -/
theorem empty_string_bounds_skipped {V : Type} (sv : SemverOps V)
    (resolver : Resolver) (pkg : PackageJson) (c : EngineConstraint)
    (rs : List EngineConstraint)
    (hmin : c.minVersion = some "") (hmax : c.maxVersion = some "") :
    satisfies sv resolver pkg ⟨c :: rs⟩ = satisfies sv resolver pkg ⟨rs⟩ ∧
    (∀ engines bm, check_constraint sv resolver engines bm c = true) := by
  have hc : ∀ engines bm, check_constraint sv resolver engines bm c = true := by
    intro engines bm
    simp [check_constraint, hmin, hmax, truthy]
  refine ⟨?_, hc⟩
  unfold satisfies
  cases hp : parse_browserslist resolver pkg.browserslist with
  | error e => rfl
  | ok bm => simp [List.all_cons, hc]

/-- Claim C10, witness: the engine is targeted and a non-empty bound would
fail, yet the empty-string-bounds constraint is skipped. -/
theorem empty_string_bounds_skipped_witness :
    satisfies natOps res0 { engines := some [("node", ">=12")] }
      ⟨[⟨"node", some "", some ""⟩]⟩ =
    satisfies natOps res0 { engines := some [("node", ">=12")] } ⟨[]⟩ :=
  (empty_string_bounds_skipped natOps res0 _ _ [] rfl rfl).1

/-! ## Claim C4 -/

/-- Splitting a character list that contains no separator yields the list
itself as the single segment. -/
theorem splitOnCharList_no_sep (c : Char) :
    ∀ l : List Char, (∀ x ∈ l, x ≠ c) → splitOnCharList c l = [l]
  | [], _ => rfl
  | x :: xs, h => by
    have hx : x ≠ c := h x (List.mem_cons_self x xs)
    have ih := splitOnCharList_no_sep c xs
      (fun y hy => h y (List.mem_cons_of_mem x hy))
    simp [splitOnCharList, ih, hx]

/-- Claim C4: the per-token bound checks split the token on hyphens and use
the first segment as the low bound for the `minVersion` check and the last
segment as the high bound for the `maxVersion` check (the spec-side
`spec_bound_check`), regardless of how many hyphens the token contains; a
token with no hyphen has low = high = the token itself. -/
theorem range_token_split {V : Type} (sv : SemverOps V) :
    (∀ (mv xv : Option String) (v : String),
      check_version_core sv mv xv v =
        spec_bound_check sv mv xv ((jsSplit '-' v).headD "")
          ((jsSplit '-' v).getLastD "")) ∧
    (∀ v : String, (∀ ch ∈ v.data, ch ≠ '-') → jsSplit '-' v = [v]) := by
  constructor
  · intro mv xv v
    rfl
  · intro v h
    simp [jsSplit, splitOnCharList_no_sep '-' v.data h]

/-- Claim C4, witness. -/
theorem range_token_split_witness :
    check_version_core natOps (some "17") (some "18") "17.5-17.6" =
      spec_bound_check natOps (some "17") (some "18")
        ((jsSplit '-' "17.5-17.6").headD "")
        ((jsSplit '-' "17.5-17.6").getLastD "") ∧
    jsSplit '-' "99" = ["99"] :=
  ⟨(range_token_split natOps).1 _ _ _,
   (range_token_split natOps).2 "99" (by decide)⟩

/-! ## Claim C6 -/

/-- A min check with an uncoercible low bound fails. -/
theorem check_min_version_none_left {V : Type} (sv : SemverOps V)
    (low m : String) (h : sv.coerce low = none) :
    check_min_version sv low m = false := by
  unfold check_min_version
  rw [h]

/-- A min check with an uncoercible required minimum fails. -/
theorem check_min_version_none_right {V : Type} (sv : SemverOps V)
    (low m : String) (h : sv.coerce m = none) :
    check_min_version sv low m = false := by
  unfold check_min_version
  cases hl : sv.coerce low
  · rfl
  · rw [h]

/-- A max check with an uncoercible high bound fails. -/
theorem check_max_version_none_left {V : Type} (sv : SemverOps V)
    (high x : String) (h : sv.coerce high = none) :
    check_max_version sv high x = false := by
  unfold check_max_version
  rw [h]

/-- A max check with an uncoercible required maximum fails. -/
theorem check_max_version_none_right {V : Type} (sv : SemverOps V)
    (high x : String) (h : sv.coerce x = none) :
    check_max_version sv high x = false := by
  unfold check_max_version
  cases hh : sv.coerce high
  · rfl
  · rw [h]

/-- A membership witness of a failing element refutes `List.all`. -/
theorem all_false_of_mem {α : Type} (l : List α) (p : α → Bool) (x : α)
    (hx : x ∈ l) (hp : p x = false) : l.all p = false := by
  induction l with
  | nil => cases hx
  | cons a as ih =>
    rcases List.mem_cons.mp hx with h | h
    · subst h
      simp [List.all_cons, hp]
    · simp [List.all_cons, ih h]

/-- Claim C6: uncoercible values in an evaluated bound check fail closed:
a token whose relevant segment does not coerce, or a caller bound that does
not coerce, fails the bound check being evaluated (never a skip), and a
requirement whose browser token has an uncoercible low segment makes the
whole decision `false`. -/
theorem uncoercible_fails_closed {V : Type} (sv : SemverOps V)
    (resolver : Resolver) :
    (∀ (xv : Option String) (m v : String), m ≠ "" →
      (sv.coerce ((jsSplit '-' v).headD "") = none ∨ sv.coerce m = none) →
      check_version_core sv (some m) xv v = false) ∧
    (∀ (mv : Option String) (x v : String), x ≠ "" →
      (sv.coerce ((jsSplit '-' v).getLastD "") = none ∨ sv.coerce x = none) →
      check_version_core sv mv (some x) v = false) ∧
    (∀ (pkg : PackageJson) (opts : SatisfiesOptions) (c : EngineConstraint)
      (bm : List (String × List String)) (vs : List String) (v m : String),
      c ∈ opts.requirements → c.minVersion = some m → m ≠ "" →
      parse_browserslist resolver pkg.browserslist = .ok bm →
      map_get bm c.engine = some vs → v ∈ vs → v ≠ "TP" →
      sv.coerce ((jsSplit '-' v).headD "") = none →
      satisfies sv resolver pkg opts = .ok false) := by
  have hmin : ∀ (xv : Option String) (m v : String), m ≠ "" →
      (sv.coerce ((jsSplit '-' v).headD "") = none ∨ sv.coerce m = none) →
      check_version_core sv (some m) xv v = false := by
    intro xv m v hm hor
    have hfail : check_min_version sv ((jsSplit '-' v).headD "") m = false := by
      rcases hor with h | h
      · exact check_min_version_none_left sv _ _ h
      · exact check_min_version_none_right sv _ _ h
    have ht : truthy (some m) = true := by simp [truthy, hm]
    simp only [check_version_core, ht, if_true, Option.getD_some, hfail,
      Bool.false_and]
  refine ⟨hmin, ?_, ?_⟩
  · intro mv x v hx hor
    have hfail : check_max_version sv ((jsSplit '-' v).getLastD "") x = false := by
      rcases hor with h | h
      · exact check_max_version_none_left sv _ _ h
      · exact check_max_version_none_right sv _ _ h
    have ht : truthy (some x) = true := by simp [truthy, hx]
    simp only [check_version_core, ht, if_true, Option.getD_some, hfail,
      Bool.and_false]
  · intro pkg opts c bm vs v m hc hcmin hm hparse hmap hv hvTP hcoe
    have hver : check_version sv resolver (some m) c.maxVersion v = false := by
      unfold check_version
      rw [if_neg hvTP]
      exact hmin c.maxVersion m v hm (Or.inl hcoe)
    have hall : vs.all (check_version sv resolver (some m) c.maxVersion) =
        false := all_false_of_mem vs _ v hv hver
    have hcon : check_constraint sv resolver (pkg.engines.getD []) bm c =
        false := by
      unfold check_constraint
      simp [hcmin, truthy, hm, hmap, hall]
    unfold satisfies
    rw [hparse]
    show Except.ok (opts.requirements.all
      (check_constraint sv resolver (pkg.engines.getD []) bm)) = .ok false
    rw [all_false_of_mem opts.requirements _ c hc hcon]

/-- Claim C6, witness: `browserslist:["op_mini all"]` with
`minVersion:"1"` yields `false` because `"all"` does not coerce. -/
theorem uncoercible_fails_closed_witness :
    satisfies natOps res2 { browserslist := some (.str "op_mini all") }
      ⟨[⟨"op_mini", some "1", none⟩]⟩ = .ok false :=
  (uncoercible_fails_closed natOps res2).2.2
    { browserslist := some (.str "op_mini all") }
    ⟨[⟨"op_mini", some "1", none⟩]⟩ ⟨"op_mini", some "1", none⟩
    [("op_mini", ["all"])] ["all"] "all" "1"
    (by decide) rfl (by decide) rfl rfl (by decide) (by decide) rfl

/-! ## Claim C7 -/

/-- Claim C7: a resolved token equal to `"TP"`, for any engine, is replaced
by the version portion of the first result of resolving
`'last 1 safari version'` before the bound checks are applied; when that
resolution yields nothing the token is skipped, causing neither a `false`
verdict nor an error. -/
theorem tp_token_resolution {V : Type} (sv : SemverOps V)
    (resolver : Resolver) :
    (∀ (mv xv : Option String),
      (resolver (BQuery.str "last 1 safari version")).headD "" = "" →
      check_version sv resolver mv xv "TP" = true) ∧
    (∀ (mv xv : Option String) (latest : String) (rest : List String),
      resolver (BQuery.str "last 1 safari version") = latest :: rest →
      latest ≠ "" →
      check_version sv resolver mv xv "TP" =
        check_version_core sv mv xv (afterChar ' ' latest)) ∧
    (∀ (pkg : PackageJson) (c : EngineConstraint)
      (bm : List (String × List String)),
      resolver (BQuery.str "last 1 safari version") = [] →
      parse_browserslist resolver pkg.browserslist = .ok bm →
      map_get bm c.engine = some ["TP"] →
      truthy (map_get (pkg.engines.getD []) c.engine) = false →
      satisfies sv resolver pkg ⟨[c]⟩ = .ok true) := by
  refine ⟨?_, ?_, ?_⟩
  · intro mv xv h
    unfold check_version
    simp only [List.headD_eq_head?_getD] at h
    simp [h]
  · intro mv xv latest rest hres hlat
    unfold check_version
    simp [hres, hlat]
  · intro pkg c bm hres hparse hmap heng
    have htp : ∀ mv xv : Option String,
        check_version sv resolver mv xv "TP" = true := by
      intro mv xv
      unfold check_version
      simp [hres]
    have hcon : check_constraint sv resolver (pkg.engines.getD []) bm c =
        true := by
      unfold check_constraint
      rcases h : map_get (pkg.engines.getD []) c.engine with _ | r
      · simp [hmap, htp, h]
      · have hr : (r != "") = false := by
          rw [h] at heng
          simpa [truthy] using heng
        simp [hmap, htp, h, hr]
    unfold satisfies
    rw [hparse]
    simp [List.all_cons, List.all_nil, hcon]

/-- Claim C7, witness: the skip case on an unresolvable `'TP'`, and the
substitution case against a concrete safari release. -/
theorem tp_token_resolution_witness :
    satisfies natOps res4 { browserslist := some (.list ["safari TP"]) }
      ⟨[⟨"safari", some "15", none⟩]⟩ = .ok true ∧
    check_version natOps res3 (some "15") none "TP" =
      check_version_core natOps (some "15") none (afterChar ' ' "safari 26") :=
  ⟨(tp_token_resolution natOps res4).2.2
      { browserslist := some (.list ["safari TP"]) }
      ⟨"safari", some "15", none⟩ [("safari", ["TP"])] rfl rfl rfl rfl,
   (tp_token_resolution natOps res3).2.1 (some "15") none "safari 26" []
      rfl (by decide)⟩

/-! ## Claim C9: helper lemmas -/

/-- Weakening the required minimum preserves a passing min check, when the
collaborator's comparisons compose transitively. -/
theorem check_min_version_mono {V : Type} (sv : SemverOps V)
    (Hgg : ∀ a b x : V, sv.lte a b = true → sv.gte x b = true →
      sv.gte x a = true)
    (low Vs Vs' : String) (cv cv' : V)
    (hc : sv.coerce Vs = some cv) (hc' : sv.coerce Vs' = some cv')
    (hle : sv.lte cv' cv = true)
    (h : check_min_version sv low Vs = true) :
    check_min_version sv low Vs' = true := by
  unfold check_min_version at h ⊢
  rw [hc] at h
  rw [hc']
  cases hl : sv.coerce low with
  | none =>
    rw [hl] at h
    exact Bool.noConfusion h
  | some c =>
    rw [hl] at h
    exact Hgg cv' cv c hle h

/-- Raising the required maximum preserves a passing max check. -/
theorem check_max_version_mono {V : Type} (sv : SemverOps V)
    (Hll : ∀ a b x : V, sv.lte x a = true → sv.lte a b = true →
      sv.lte x b = true)
    (high Vs Vs'' : String) (cv cv'' : V)
    (hc : sv.coerce Vs = some cv) (hc'' : sv.coerce Vs'' = some cv'')
    (hle : sv.lte cv cv'' = true)
    (h : check_max_version sv high Vs = true) :
    check_max_version sv high Vs'' = true := by
  unfold check_max_version at h ⊢
  rw [hc] at h
  rw [hc'']
  cases hl : sv.coerce high with
  | none =>
    rw [hl] at h
    exact Bool.noConfusion h
  | some c =>
    rw [hl] at h
    exact Hll cv cv'' c h hle

/-- Weakening the required minimum preserves a passing engine-range min
check. -/
theorem check_min_range_mono {V : Type} (sv : SemverOps V)
    (Hgg : ∀ a b x : V, sv.lte a b = true → sv.gte x b = true →
      sv.gte x a = true)
    (r Vs Vs' : String) (cv cv' : V)
    (hc : sv.coerce Vs = some cv) (hc' : sv.coerce Vs' = some cv')
    (hle : sv.lte cv' cv = true)
    (h : check_min_range sv r Vs = true) :
    check_min_range sv r Vs' = true := by
  unfold check_min_range at h ⊢
  rw [hc] at h
  rw [hc']
  cases hl : sv.minVersion r with
  | none =>
    rw [hl] at h
    exact Bool.noConfusion h
  | some lowest =>
    rw [hl] at h
    exact Hgg cv' cv lowest hle h

/-- Raising the cap preserves a passing engine-range max check, when the
`intersects` primitive is antitone in the `>`-query. -/
theorem check_max_range_mono {V : Type} (sv : SemverOps V)
    (r Vs Vs'' : String)
    (Hint : ∀ rr, sv.intersects rr (">" ++ Vs'') = true →
      sv.intersects rr (">" ++ Vs) = true)
    (h : check_max_range sv r Vs = true) :
    check_max_range sv r Vs'' = true := by
  unfold check_max_range at h ⊢
  cases hi : sv.intersects r (">" ++ Vs'') with
  | false => rfl
  | true =>
    rw [Hint r hi] at h
    exact Bool.noConfusion h

/-- Weakening the required minimum preserves a passing engine-range check
(no max bound). -/
theorem check_engine_range_min_mono {V : Type} (sv : SemverOps V)
    (Hgg : ∀ a b x : V, sv.lte a b = true → sv.gte x b = true →
      sv.gte x a = true)
    (r Vs Vs' : String) (cv cv' : V) (hVs : Vs ≠ "")
    (hc : sv.coerce Vs = some cv) (hc' : sv.coerce Vs' = some cv')
    (hle : sv.lte cv' cv = true)
    (h : check_engine_range sv r (some Vs) none = true) :
    check_engine_range sv r (some Vs') none = true := by
  by_cases hVs' : Vs' = ""
  · simp [check_engine_range, truthy, hVs']
  · simp [check_engine_range, truthy, hVs, hVs'] at h ⊢
    exact check_min_range_mono sv Hgg r Vs Vs' cv cv' hc hc' hle h

/-- Raising the cap preserves a passing engine-range check (no min bound). -/
theorem check_engine_range_max_mono {V : Type} (sv : SemverOps V)
    (r Vs Vs'' : String) (hVs : Vs ≠ "")
    (Hint : ∀ rr, sv.intersects rr (">" ++ Vs'') = true →
      sv.intersects rr (">" ++ Vs) = true)
    (h : check_engine_range sv r none (some Vs) = true) :
    check_engine_range sv r none (some Vs'') = true := by
  by_cases hVs'' : Vs'' = ""
  · simp [check_engine_range, truthy, hVs'']
  · simp [check_engine_range, truthy, hVs, hVs''] at h ⊢
    exact check_max_range_mono sv r Vs Vs'' Hint h

/-- Weakening the required minimum preserves a passing per-token check. -/
theorem check_version_min_mono {V : Type} (sv : SemverOps V)
    (resolver : Resolver)
    (Hgg : ∀ a b x : V, sv.lte a b = true → sv.gte x b = true →
      sv.gte x a = true)
    (Vs Vs' : String) (cv cv' : V) (hVs : Vs ≠ "")
    (hc : sv.coerce Vs = some cv) (hc' : sv.coerce Vs' = some cv')
    (hle : sv.lte cv' cv = true) (v : String)
    (h : check_version sv resolver (some Vs) none v = true) :
    check_version sv resolver (some Vs') none v = true := by
  have hcore : ∀ w : String, check_version_core sv (some Vs) none w = true →
      check_version_core sv (some Vs') none w = true := by
    intro w hw
    by_cases hVs' : Vs' = ""
    · simp [check_version_core, truthy, hVs']
    · simp [check_version_core, truthy, hVs, hVs'] at hw ⊢
      exact check_min_version_mono sv Hgg _ Vs Vs' cv cv' hc hc' hle hw
  simp only [check_version] at h ⊢
  by_cases hv : v = "TP"
  · rw [if_pos hv] at h ⊢
    by_cases hl : (resolver (BQuery.str "last 1 safari version")).headD "" = ""
    · rw [if_pos hl]
    · rw [if_neg hl] at h ⊢
      exact hcore _ h
  · rw [if_neg hv] at h ⊢
    exact hcore _ h

/-- Raising the cap preserves a passing per-token check. -/
theorem check_version_max_mono {V : Type} (sv : SemverOps V)
    (resolver : Resolver)
    (Hll : ∀ a b x : V, sv.lte x a = true → sv.lte a b = true →
      sv.lte x b = true)
    (Vs Vs'' : String) (cv cv'' : V) (hVs : Vs ≠ "")
    (hc : sv.coerce Vs = some cv) (hc'' : sv.coerce Vs'' = some cv'')
    (hle : sv.lte cv cv'' = true) (v : String)
    (h : check_version sv resolver none (some Vs) v = true) :
    check_version sv resolver none (some Vs'') v = true := by
  have hcore : ∀ w : String, check_version_core sv none (some Vs) w = true →
      check_version_core sv none (some Vs'') w = true := by
    intro w hw
    by_cases hVs'' : Vs'' = ""
    · simp [check_version_core, truthy, hVs'']
    · simp [check_version_core, truthy, hVs, hVs''] at hw ⊢
      exact check_max_version_mono sv Hll _ Vs Vs'' cv cv'' hc hc'' hle hw
  simp only [check_version] at h ⊢
  by_cases hv : v = "TP"
  · rw [if_pos hv] at h ⊢
    by_cases hl : (resolver (BQuery.str "last 1 safari version")).headD "" = ""
    · rw [if_pos hl]
    · rw [if_neg hl] at h ⊢
      exact hcore _ h
  · rw [if_neg hv] at h ⊢
    exact hcore _ h

/-- Evaluation of a constraint check once one bound is truthy: the skip
guard does not fire, leaving the untargeted test and the two evidence
sources. -/
theorem check_constraint_eval {V : Type} (sv : SemverOps V)
    (resolver : Resolver) (engines : List (String × String))
    (bm : List (String × List String)) (e : String) (mv xv : Option String)
    (hb : truthy mv = true ∨ truthy xv = true) :
    check_constraint sv resolver engines bm ⟨e, mv, xv⟩ =
      if !truthy (map_get engines e) && (map_get bm e).isNone then true
      else
        (match map_get engines e with
         | some r => if r != "" then check_engine_range sv r mv xv else true
         | none => true) &&
        (match map_get bm e with
         | some vs => vs.all (check_version sv resolver mv xv)
         | none => true) := by
  unfold check_constraint
  rcases hb with hb | hb <;> simp [hb]

/-- Weakening the required minimum preserves a passing constraint check. -/
theorem check_constraint_min_mono {V : Type} (sv : SemverOps V)
    (resolver : Resolver) (engines : List (String × String))
    (bm : List (String × List String))
    (Hgg : ∀ a b x : V, sv.lte a b = true → sv.gte x b = true →
      sv.gte x a = true)
    (e Vs Vs' : String) (cv cv' : V) (hVs : Vs ≠ "")
    (hc : sv.coerce Vs = some cv) (hc' : sv.coerce Vs' = some cv')
    (hle : sv.lte cv' cv = true)
    (h : check_constraint sv resolver engines bm ⟨e, some Vs, none⟩ = true) :
    check_constraint sv resolver engines bm ⟨e, some Vs', none⟩ = true := by
  by_cases hVs' : Vs' = ""
  · simp [check_constraint, truthy, hVs']
  · have ht : truthy (some Vs) = true := by simp [truthy, hVs]
    have ht' : truthy (some Vs') = true := by simp [truthy, hVs']
    rw [check_constraint_eval sv resolver engines bm e (some Vs) none
      (Or.inl ht)] at h
    rw [check_constraint_eval sv resolver engines bm e (some Vs') none
      (Or.inl ht')]
    by_cases hg : (!truthy (map_get engines e) && (map_get bm e).isNone) = true
    · rw [if_pos hg]
    · rw [if_neg hg] at h ⊢
      rw [Bool.and_eq_true] at h ⊢
      obtain ⟨h1, h2⟩ := h
      constructor
      · cases hr : map_get engines e with
        | none => rfl
        | some r =>
          rw [hr] at h1
          have h1' : (if r != "" then check_engine_range sv r (some Vs) none
              else true) = true := h1
          show (if r != "" then check_engine_range sv r (some Vs') none
            else true) = true
          by_cases hre : (r != "") = true
          · rw [if_pos hre] at h1' ⊢
            exact check_engine_range_min_mono sv Hgg r Vs Vs' cv cv' hVs
              hc hc' hle h1'
          · rw [if_neg hre]
      · cases hbv : map_get bm e with
        | none => rfl
        | some vs =>
          rw [hbv] at h2
          have h2' : vs.all (check_version sv resolver (some Vs) none) =
              true := h2
          show vs.all (check_version sv resolver (some Vs') none) = true
          rw [List.all_eq_true] at h2' ⊢
          intro x hx
          exact check_version_min_mono sv resolver Hgg Vs Vs' cv cv' hVs
            hc hc' hle x (h2' x hx)

/-- Raising the cap preserves a passing constraint check. -/
theorem check_constraint_max_mono {V : Type} (sv : SemverOps V)
    (resolver : Resolver) (engines : List (String × String))
    (bm : List (String × List String))
    (Hll : ∀ a b x : V, sv.lte x a = true → sv.lte a b = true →
      sv.lte x b = true)
    (e Vs Vs'' : String) (cv cv'' : V) (hVs : Vs ≠ "")
    (hc : sv.coerce Vs = some cv) (hc'' : sv.coerce Vs'' = some cv'')
    (hle : sv.lte cv cv'' = true)
    (Hint : ∀ rr, sv.intersects rr (">" ++ Vs'') = true →
      sv.intersects rr (">" ++ Vs) = true)
    (h : check_constraint sv resolver engines bm ⟨e, none, some Vs⟩ = true) :
    check_constraint sv resolver engines bm ⟨e, none, some Vs''⟩ = true := by
  by_cases hVs'' : Vs'' = ""
  · simp [check_constraint, truthy, hVs'']
  · have ht : truthy (some Vs) = true := by simp [truthy, hVs]
    have ht'' : truthy (some Vs'') = true := by simp [truthy, hVs'']
    rw [check_constraint_eval sv resolver engines bm e none (some Vs)
      (Or.inr ht)] at h
    rw [check_constraint_eval sv resolver engines bm e none (some Vs'')
      (Or.inr ht'')]
    by_cases hg : (!truthy (map_get engines e) && (map_get bm e).isNone) = true
    · rw [if_pos hg]
    · rw [if_neg hg] at h ⊢
      rw [Bool.and_eq_true] at h ⊢
      obtain ⟨h1, h2⟩ := h
      constructor
      · cases hr : map_get engines e with
        | none => rfl
        | some r =>
          rw [hr] at h1
          have h1' : (if r != "" then check_engine_range sv r none (some Vs)
              else true) = true := h1
          show (if r != "" then check_engine_range sv r none (some Vs'')
            else true) = true
          by_cases hre : (r != "") = true
          · rw [if_pos hre] at h1' ⊢
            exact check_engine_range_max_mono sv r Vs Vs'' hVs Hint h1'
          · rw [if_neg hre]
      · cases hbv : map_get bm e with
        | none => rfl
        | some vs =>
          rw [hbv] at h2
          have h2' : vs.all (check_version sv resolver none (some Vs)) =
              true := h2
          show vs.all (check_version sv resolver none (some Vs'')) = true
          rw [List.all_eq_true] at h2' ⊢
          intro x hx
          exact check_version_max_mono sv resolver Hll Vs Vs'' cv cv'' hVs
            hc hc'' hle x (h2' x hx)

/-! ## Claim C9 -/

/-- Claim C9: monotonicity of `satisfies` in the caller's bounds, for any
collaborator whose comparisons compose transitively: if a single
`minVersion` requirement with a coercible bound `Vs` passes, it also passes
with every coercible `Vs' ≤ Vs`; dually, if a single `maxVersion`
requirement with bound `Vs` passes, it also passes with every coercible
`Vs'' ≥ Vs` (for the engine-range arm the cap comparison goes through the
`intersects` primitive on the concatenated `>`-query, whose corresponding
antitonicity is assumed). -/
theorem satisfies_bound_monotone {V : Type} (sv : SemverOps V)
    (resolver : Resolver)
    (Hgg : ∀ a b x : V, sv.lte a b = true → sv.gte x b = true →
      sv.gte x a = true)
    (Hll : ∀ a b x : V, sv.lte x a = true → sv.lte a b = true →
      sv.lte x b = true) :
    (∀ (pkg : PackageJson) (e Vs Vs' : String) (cv cv' : V),
      Vs ≠ "" →
      sv.coerce Vs = some cv → sv.coerce Vs' = some cv' →
      sv.lte cv' cv = true →
      satisfies sv resolver pkg ⟨[⟨e, some Vs, none⟩]⟩ = .ok true →
      satisfies sv resolver pkg ⟨[⟨e, some Vs', none⟩]⟩ = .ok true) ∧
    (∀ (pkg : PackageJson) (e Vs Vs'' : String) (cv cv'' : V),
      Vs ≠ "" →
      sv.coerce Vs = some cv → sv.coerce Vs'' = some cv'' →
      sv.lte cv cv'' = true →
      (∀ rr, sv.intersects rr (">" ++ Vs'') = true →
        sv.intersects rr (">" ++ Vs) = true) →
      satisfies sv resolver pkg ⟨[⟨e, none, some Vs⟩]⟩ = .ok true →
      satisfies sv resolver pkg ⟨[⟨e, none, some Vs''⟩]⟩ = .ok true) := by
  constructor
  · intro pkg e Vs Vs' cv cv' hVs hc hc' hle hsat
    unfold satisfies at hsat ⊢
    cases hp : parse_browserslist resolver pkg.browserslist with
    | error er =>
      rw [hp] at hsat
      exact Except.noConfusion hsat
    | ok bm =>
      rw [hp] at hsat
      have h1 : ([⟨e, some Vs, none⟩] : List EngineConstraint).all
          (check_constraint sv resolver (pkg.engines.getD []) bm) = true := by
        injection hsat
      rw [List.all_cons, List.all_nil, Bool.and_true] at h1
      have h2 := check_constraint_min_mono sv resolver (pkg.engines.getD [])
        bm Hgg e Vs Vs' cv cv' hVs hc hc' hle h1
      show Except.ok (([⟨e, some Vs', none⟩] : List EngineConstraint).all
        (check_constraint sv resolver (pkg.engines.getD []) bm)) = .ok true
      rw [List.all_cons, List.all_nil, Bool.and_true, h2]
  · intro pkg e Vs Vs'' cv cv'' hVs hc hc'' hle Hint hsat
    unfold satisfies at hsat ⊢
    cases hp : parse_browserslist resolver pkg.browserslist with
    | error er =>
      rw [hp] at hsat
      exact Except.noConfusion hsat
    | ok bm =>
      rw [hp] at hsat
      have h1 : ([⟨e, none, some Vs⟩] : List EngineConstraint).all
          (check_constraint sv resolver (pkg.engines.getD []) bm) = true := by
        injection hsat
      rw [List.all_cons, List.all_nil, Bool.and_true] at h1
      have h2 := check_constraint_max_mono sv resolver (pkg.engines.getD [])
        bm Hll e Vs Vs'' cv cv'' hVs hc hc'' hle Hint h1
      show Except.ok (([⟨e, none, some Vs''⟩] : List EngineConstraint).all
        (check_constraint sv resolver (pkg.engines.getD []) bm)) = .ok true
      rw [List.all_cons, List.all_nil, Bool.and_true, h2]

/-- Claim C9, witness: weakening a passing minimum from `"14"` to `"12"`
keeps the decision passing, and raising a passing cap from `"150"` to
`"151"` keeps it passing. -/
theorem satisfies_bound_monotone_witness :
    satisfies natOps res0 { engines := some [("node", ">=18")] }
      ⟨[⟨"node", some "12", none⟩]⟩ = .ok true ∧
    satisfies natOps res0 { engines := some [("node", "12")] }
      ⟨[⟨"node", none, some "151"⟩]⟩ = .ok true := by
  have Hgg : ∀ a b x : Nat, natOps.lte a b = true → natOps.gte x b = true →
      natOps.gte x a = true := by
    intro a b x h1 h2
    simp [natOps] at h1 h2 ⊢
    omega
  have Hll : ∀ a b x : Nat, natOps.lte x a = true → natOps.lte a b = true →
      natOps.lte x b = true := by
    intro a b x h1 h2
    simp [natOps] at h1 h2 ⊢
    omega
  constructor
  · exact (satisfies_bound_monotone natOps res0 Hgg Hll).1
      { engines := some [("node", ">=18")] } "node" "14" "12" 14 12
      (by decide) rfl rfl (by decide) rfl
  · refine (satisfies_bound_monotone natOps res0 Hgg Hll).2
      { engines := some [("node", "12")] } "node" "150" "151" 150 151
      (by decide) rfl rfl (by decide) ?_ rfl
    intro rr h
    simp only [natOps] at h ⊢
    rw [show natQuery (">" ++ "151") = some 151 from rfl] at h
    rw [show natQuery (">" ++ "150") = some 150 from rfl]
    cases hR : natRange rr with
    | none =>
      rw [hR] at h
      exact Bool.noConfusion h
    | some p =>
      rw [hR] at h
      obtain ⟨ub, lo⟩ := p
      cases ub with
      | true => rfl
      | false =>
        have h' : decide (151 < lo) = true := h
        have hlt : 151 < lo := of_decide_eq_true h'
        show decide (150 < lo) = true
        exact decide_eq_true (by omega)

end EngineMatch
